import Mathlib

/-!
Verification development for the agent orchestration and secure tool
execution sandbox of the dockerizer repository.

The definitions below are a shallow embedding of the Go source
(package `agent`: the path sandbox, the shell-command validator, the
inspectors, the tool dispatcher and the agent retry loop).  Paths and
commands are modelled as Lean `String`s (lists of characters, ASCII in
all inputs of interest); the filesystem, which the Go code consults
through `filepath.EvalSymlinks` and `os.Lstat`, is modelled as a finite
association list from absolute component paths to entries (directory,
file, or symlink).  Go standard-library string and path helpers are
re-implemented here with their documented semantics (Unix separators).
-/

deriving instance DecidableEq for Except

namespace Dockerizer

/-- Character-level whitespace test matching `unicode.IsSpace` on the
ASCII characters that occur in the commands under study. -/
def goIsSpace (c : Char) : Bool :=
  c = ' ' ∨ c = '\t' ∨ c = '\n' ∨ c = '\r'

/-- Builds a `String` back from a character list. -/
def chStr (cs : List Char) : String := String.mk cs

/-- Splits a character list at every character satisfying `p`,
keeping empty pieces (the behaviour of `strings.Split` generalised to a
predicate). -/
def splitOnP (p : Char → Bool) (cs : List Char) : List (List Char) :=
  cs.foldr
    (fun c acc =>
      match acc with
      | cur :: done => if p c then [] :: cur :: done else (c :: cur) :: done
      | [] => [[c]])
    [[]]

/-- Embedding of `strings.Split(s, sep)` for a one-character separator,
the only form the source uses. -/
def goSplitChar (s : String) (sep : Char) : List String :=
  (splitOnP (· = sep) s.data).map chStr

/-- Embedding of `strings.Fields`: whitespace-delimited tokens. -/
def goFields (s : String) : List String :=
  ((splitOnP goIsSpace s.data).filter (· ≠ [])).map chStr

/-- Embedding of `strings.TrimSpace`. -/
def goTrimSpace (s : String) : String :=
  chStr (((s.data.dropWhile goIsSpace).reverse.dropWhile goIsSpace).reverse)

/-- Embedding of `strings.HasPrefix`. -/
def goHasPre (s pre : String) : Bool := pre.data.isPrefixOf s.data

/-- Embedding of `strings.HasSuffix`. -/
def goHasSuf (s suf : String) : Bool := suf.data.isSuffixOf s.data

/-- Embedding of `strings.Contains` (substring test). -/
def goContains (s sub : String) : Bool := decide (sub.data <:+: s.data)

/-- Embedding of `strings.ContainsRune`. -/
def goContainsChar (s : String) (c : Char) : Bool := s.data.contains c

/-- Embedding of `strings.TrimPrefix`. -/
def goTrimPre (s pre : String) : String :=
  if goHasPre s pre then chStr (s.data.drop pre.data.length) else s

/-- Embedding of `strings.TrimSuffix`. -/
def goTrimSuf (s suf : String) : String :=
  if goHasSuf s suf then chStr (s.data.take (s.data.length - suf.data.length)) else s

/-- Embedding of `strings.ToUpper` on the ASCII range. -/
def goToUpper (s : String) : String := chStr (s.data.map Char.toUpper)

/-- Embedding of `strings.SplitN(s, sep, 2)[1]` (everything after the
first occurrence of the one-character separator); only called when the
separator occurs. -/
def goAfterFirst (s : String) (sep : Char) : String :=
  String.intercalate (chStr [sep]) ((goSplitChar s sep).tail)

/-- Unix `filepath.IsAbs`. -/
def isAbs (p : String) : Bool := goHasPre p "/"

/-- Path components of `p`: empty components (and hence repeated or
trailing separators) are dropped. -/
def splitPath (p : String) : List String :=
  (goSplitChar p '/').filter (· ≠ "")

/-- Lexical `..`/`.` elimination of `filepath.Clean`, processing the
components with an output stack kept in reverse order. -/
def cleanRev (ab : Bool) : List String → List String → List String
  | acc, [] => acc
  | acc, c :: rest =>
    if c = "." then cleanRev ab acc rest
    else if c = ".." then
      match acc with
      | [] => if ab then cleanRev ab [] rest else cleanRev ab [".."] rest
      | h :: t => if h = ".." then cleanRev ab (".." :: h :: t) rest else cleanRev ab t rest
    else cleanRev ab (c :: acc) rest

/-- Cleaned component list of a path whose absoluteness is `ab`. -/
def cleanComps (ab : Bool) (comps : List String) : List String :=
  (cleanRev ab [] comps).reverse

/-- Embedding of `filepath.Clean` for Unix paths. -/
def goClean (p : String) : String :=
  let ab := isAbs p
  let comps := cleanComps ab (splitPath p)
  if ab then "/" ++ String.intercalate "/" comps
  else if comps = [] then "." else String.intercalate "/" comps

/-- Embedding of `filepath.Join` on two elements: empty elements are
skipped and the result is cleaned. -/
def goJoin (a b : String) : String :=
  if a = "" ∧ b = "" then ""
  else if a = "" then goClean b
  else if b = "" then goClean a
  else goClean (a ++ "/" ++ b)

/-- Embedding of `filepath.Dir`: everything up to and including the
final separator, cleaned; `"."` when there is no separator. -/
def goDir (p : String) : String :=
  if p.data.contains '/' then
    goClean (chStr ((p.data.reverse.dropWhile (· ≠ '/')).reverse))
  else "."

/-- Embedding of `filepath.Base`: the last element of the path after
trailing separators are removed. -/
def goBase (p : String) : String :=
  if p = "" then "."
  else
    let cs := (p.data.reverse.dropWhile (· = '/')).reverse
    if cs = [] then "/"
    else chStr ((cs.reverse.takeWhile (· ≠ '/')).reverse)

/-- Embedding of `filepath.Abs` for the call sites of this code, all of
which hand it an already-absolute path (outputs of
`filepath.EvalSymlinks` on absolute inputs), where `Abs` reduces to
`Clean`. -/
def goAbs (p : String) : String := goClean p

/-- Filesystem entry: a directory, a regular file, or a symbolic link
with the given target string. -/
inductive FsEntry where
  | dir : FsEntry
  | file : FsEntry
  | symlink (target : String) : FsEntry
deriving DecidableEq

/-- Filesystem model: a finite map from absolute component paths to
entries, as observed by `os.Lstat` (symlinks are not followed by a
lookup; the walk below follows them explicitly, exactly as
`filepath.EvalSymlinks` does). -/
abbrev Fsys := List (List String × FsEntry)

/-- Looks up the entry stored at an absolute component path. -/
def fsLookup (fs : Fsys) (p : List String) : Option FsEntry :=
  (fs.find? (fun e => e.1 = p)).map (·.2)

/-- Component walk of `filepath.EvalSymlinks`: `dest` is the already
fully resolved (symlink-free) absolute prefix, and the remaining
components are processed one at a time; a symlink component substitutes
its target's components (restarting from the root for an absolute
target).  The walk is fuel-bounded, as `EvalSymlinks` itself fails
after too many link follows. -/
def walkSymlinks (fs : Fsys) : Nat → List String → List String → Option (List String)
  | 0, _, _ => none
  | _ + 1, dest, [] => some dest
  | fuel + 1, dest, c :: rest =>
    if c = "" ∨ c = "." then walkSymlinks fs fuel dest rest
    else if c = ".." then walkSymlinks fs fuel dest.dropLast rest
    else
      match fsLookup fs (dest ++ [c]) with
      | none => none
      | some .dir => walkSymlinks fs fuel (dest ++ [c]) rest
      | some .file => if rest.isEmpty then some (dest ++ [c]) else none
      | some (.symlink t) =>
        if isAbs t then walkSymlinks fs fuel [] (splitPath t ++ rest)
        else walkSymlinks fs fuel dest (splitPath t ++ rest)

/-- Renders an absolute component path back to a string. -/
def compsToAbs (comps : List String) : String :=
  "/" ++ String.intercalate "/" comps

/-- Walk fuel; far beyond the 255 link follows Go allows before
`EvalSymlinks` reports `too many links`. -/
def walkFuel : Nat := 10000

/-- Embedding of `filepath.EvalSymlinks` over the filesystem model, for
absolute inputs (every call site of this code passes an absolute path
once the base directory is absolute, as the theorems below assume).
`none` is the error case: a missing component, a non-directory used as
a directory, or too many links. -/
def evalSymlinks (fs : Fsys) (p : String) : Option String :=
  if isAbs p then (walkSymlinks fs walkFuel [] (splitPath p)).map compsToAbs
  else none

/-- Embedding of `resolveExistingParent`: walks up the directory tree
until an existing directory is found and resolves it; fuel-driven form
of the source's unconditional loop, which terminates because
`filepath.Dir` reaches a fixed point (`/` or `.`). -/
def resolveExistingParentFuel (fs : Fsys) : Nat → String → Option String
  | 0, _ => none
  | fuel + 1, path =>
    let parent := goDir path
    if parent = path then evalSymlinks fs parent
    else
      match evalSymlinks fs parent with
      | some r => some r
      | none => resolveExistingParentFuel fs fuel parent

/-- Fuel sufficient for `resolveExistingParentFuel` to reach the fixed
point of `goDir` from `path`. -/
def resolveExistingParent (fs : Fsys) (path : String) : Option String :=
  resolveExistingParentFuel fs ((splitPath path).length + 2) path

/-- Embedding of `isPathWithin`: checks that `path` equals or lies
under `base`, appending a trailing separator to `base` so that a
sibling such as `/home/username` does not match base `/home/user`. -/
def isPathWithin (path base : String) : Bool :=
  let base' := if goHasSuf base "/" then base else base ++ "/"
  path = goTrimSuf base' "/" ∨ goHasPre path base'

/-- Error cases of `securePath`, one per `fmt.Errorf` in the source:
`absNotAllowed` is `absolute paths are not allowed`, `baseResolveFailed`
is `failed to resolve base directory`, `resolveFailed` is `failed to
resolve path`, and `escape` is `path escapes working directory via
symlink` (the PathEscape case of the specification). -/
inductive PathErr where
  | absNotAllowed
  | baseResolveFailed
  | resolveFailed
  | escape
deriving DecidableEq

/-- Embedding of `securePath`: validates and resolves `path` against
`baseDir`, rejecting absolute paths and any resolution (of the full
path when it exists, or of its nearest existing ancestor when it does
not) that leaves the canonicalized base. -/
def securePath (fs : Fsys) (baseDir path : String) : Except PathErr String :=
  if isAbs path then .error .absNotAllowed
  else
    match evalSymlinks fs baseDir with
    | none => .error .baseResolveFailed
    | some realBase0 =>
      let realBase := goAbs realBase0
      let fullPath := goJoin baseDir (goClean path)
      match evalSymlinks fs fullPath with
      | some realPath0 =>
        if isPathWithin (goAbs realPath0) realBase then .ok fullPath
        else .error .escape
      | none =>
        let parentDir := goDir fullPath
        let rp? : Option String :=
          match evalSymlinks fs parentDir with
          | some rp => some rp
          | none => resolveExistingParent fs parentDir
        match rp? with
        | none => .error .resolveFailed
        | some rp =>
          if isPathWithin (goAbs rp) realBase then .ok fullPath
          else .error .escape

/-- Rejections of the shell-command validator, one constructor per
`fmt.Errorf` in `validateShellCommand`, `validateDockerCommand`,
`validateVolumeMount` and `validateDockerComposeCommand`.  Under the
specification's error taxonomy every one of these is a
`DisallowedCommand`: the validator refused the command line. -/
inductive ShellErr where
  | commandRequired
  | metachar (c : Char)
  | chaining
  | emptyCommand
  | disallowed (base : String)
  | dangerousFlag (flag : String)
  | volumeOutside (hostPath : String)
  | volumeTraversal
  | volumeSensitive (hostPath : String)
  | mountOutside
  | composeExec
  | composeRun
deriving DecidableEq

/-- The blocked shell metacharacters of `validateShellCommand`
(newline, carriage return, redirection, pipe, dollar, backquote,
semicolon, ampersand). -/
def blockedChars : List Char := "\n\r><|$\x60;&".data

/-- The denylisted docker flags of `validateDockerCommand`. -/
def dangerousFlags : List String :=
  ["--privileged", "--pid=host", "--network=host", "--userns=host",
   "--uts=host", "--ipc=host", "--cap-add", "--security-opt", "--device"]

/-- The sensitive host roots of `validateVolumeMount`. -/
def sensitiveRoots : List String := ["/", "/etc", "/var", "/usr", "/root", "/home"]

/-- Scan of `validateVolumeMount`'s `-v spec` form: the first argument
equal to `arg` that is followed by another argument yields that next
argument. -/
def findNextArg : List String → String → Option String
  | [], _ => none
  | a :: rest, arg =>
    if a = arg then
      match rest with
      | b :: _ => some b
      | [] => none
    else findNextArg rest arg

/-- Checks of `validateVolumeMount` on an extracted, non-empty volume
spec `host-src:container-dest[:options]`: an absolute host source whose
`Abs` form does not have the working directory's `Abs` form as a string
prefix is rejected; a host source containing `..` anywhere is rejected;
a host source equal to a sensitive root or extending one past a
separator is rejected. -/
def checkVolumeSpec (workDir volumeSpec : String) : Except ShellErr Unit :=
  let hostPath := (goSplitChar volumeSpec ':').headD ""
  if isAbs hostPath ∧ ¬ goHasPre (goAbs hostPath) (goAbs workDir) then
    .error (.volumeOutside hostPath)
  else if goContains hostPath ".." then .error .volumeTraversal
  else
    match sensitiveRoots.find? (fun s => hostPath = s ∨ goHasPre hostPath (s ++ "/")) with
    | some _ => .error (.volumeSensitive hostPath)
    | none => .ok ()

/-- Embedding of `validateVolumeMount`: extracts the volume spec from
the `-v=spec`, `-v spec` or `-vspec` form and checks it; an empty spec
is let through for docker to reject. -/
def validateVolumeMount (workDir arg : String) (args : List String) : Except ShellErr Unit :=
  let volumeSpec :=
    if goContains arg "=" then goAfterFirst arg '='
    else if arg = "-v" ∨ arg = "--volume" then (findNextArg args arg).getD ""
    else if goHasPre arg "-v" then goTrimPre arg "-v"
    else ""
  if volumeSpec = "" then .ok ()
  else checkVolumeSpec workDir volumeSpec

/-- Per-argument body of `validateDockerCommand`'s loop, followed by
the `--mount` check; `args` is the full argument list, needed by the
volume-mount scan. -/
def validateDockerArgsFrom (workDir : String) (args : List String) : List String → Except ShellErr Unit
  | [] => .ok ()
  | arg :: rest =>
    match dangerousFlags.find? (fun d => goHasPre arg d) with
    | some d => .error (.dangerousFlag d)
    | none =>
      match
        (if goHasPre arg "-v" ∨ goHasPre arg "--volume" then
          validateVolumeMount workDir arg args
        else .ok ()) with
      | .error e => .error e
      | .ok () =>
        if goHasPre arg "--mount" ∧ goContains arg "type=bind" ∧ goContains arg "source=/" ∧
            ¬ goContains arg ("source=" ++ workDir) then
          .error .mountOutside
        else validateDockerArgsFrom workDir args rest

/-- Embedding of `validateDockerCommand`. -/
def validateDockerCommand (workDir : String) (args : List String) : Except ShellErr Unit :=
  validateDockerArgsFrom workDir args args

/-- Inner scan of `validateDockerComposeCommand`'s `exec` case: true
when some occurrence of `exec` is immediately followed by an argument
that is neither `-T` nor `--no-TTY` and does not start with `-`. -/
def composeExecBad (args : List String) : Bool :=
  (args.zip args.tail).any
    (fun pr => pr.1 = "exec" ∧ pr.2 ≠ "-T" ∧ pr.2 ≠ "--no-TTY" ∧ ¬ goHasPre pr.2 "-")

/-- Outer loop of `validateDockerComposeCommand` over the remaining
arguments; `args` is the full list scanned by the inner `exec` loop. -/
def validateComposeArgsFrom (args : List String) : List String → Except ShellErr Unit
  | [] => .ok ()
  | arg :: rest =>
    if arg = "exec" ∧ composeExecBad args then .error .composeExec
    else if arg = "run" then .error .composeRun
    else validateComposeArgsFrom args rest

/-- Embedding of `validateDockerComposeCommand`. -/
def validateDockerComposeCommand (args : List String) : Except ShellErr Unit :=
  validateComposeArgsFrom args args

/-- Embedding of `validateShellCommand`: trims the line, rejects
blocked metacharacters and chaining operators, and dispatches on the
base name of the first whitespace-delimited token, failing closed for
any program other than `docker` and `docker-compose`. -/
def validateShellCommand (workDir command : String) : Except ShellErr Unit :=
  let command := goTrimSpace command
  match blockedChars.find? (fun c => goContainsChar command c) with
  | some c => .error (.metachar c)
  | none =>
    if goContains command "&&" ∨ goContains command "||" then .error .chaining
    else
      match goFields command with
      | [] => .error .emptyCommand
      | p0 :: rest =>
        if goBase p0 = "docker" then validateDockerCommand workDir rest
        else if goBase p0 = "docker-compose" then validateDockerComposeCommand rest
        else .error (.disallowed (goBase p0))

/-- Embedding of `ShellTool.Execute`: requires a non-empty command,
validates it, and only then spawns the subprocess; a successful result
is the spawned invocation `(program, argv, cwd)`, which the source runs
as `sh -c command` in the working directory. -/
def shellToolExecute (workDir command : String) : Except ShellErr (String × List String × String) :=
  if command = "" then .error .commandRequired
  else
    match validateShellCommand workDir command with
    | .error e => .error e
    | .ok () => .ok ("sh", ["-c", command], workDir)

/-- Boolean success test for `Except`. -/
def exceptOk {ε α : Type} : Except ε α → Bool
  | .ok _ => true
  | .error _ => false

/-- Dynamic tool-argument value (Go's `interface{}` restricted to the
types the agent code asserts: strings, booleans and integers). -/
inductive Val where
  | str (s : String)
  | boolean (b : Bool)
  | int (n : Int)
deriving DecidableEq

/-- Tool arguments: Go's `map[string]interface{}` as an association
list. -/
abbrev Args := List (String × Val)

/-- Embedding of Go's `v, _ := args[k].(string)`: the string stored at
`k`, or the zero value `""` when the key is absent or holds another
type. -/
def getStr (args : Args) (k : String) : String :=
  match args.find? (fun e => e.1 = k) with
  | some (_, .str s) => s
  | _ => ""

/-- Embedding of Go's `v, ok := args[k].(bool)` combined with `ok && v`. -/
def getBool (args : Args) (k : String) : Bool :=
  match args.find? (fun e => e.1 = k) with
  | some (_, .boolean b) => b
  | _ => false

/-- The catastrophic shell substrings denylisted by
`SecurityInspector`. -/
def dangerousCommands : List String :=
  ["rm -rf /", "rm -rf /*", "dd if=", "mkfs", ":()\x7b :|:& \x7d;:",
   "> /dev/sd", "chmod -R 777 /"]

/-- Embedding of `SecurityInspector.Inspect`. -/
def securityInspect (tool : String) (args : Args) : Except String Unit :=
  match
    (if tool = "shell" then
      dangerousCommands.find? (fun d => goContains (getStr args "command") d)
    else none) with
  | some d => .error ("blocked dangerous command: " ++ d)
  | none =>
    if tool = "docker_run" ∧ getBool args "privileged" then
      .error "privileged containers are not allowed"
    else .ok ()

/-- The Dockerfile instruction keywords `validateDockerfileSyntax`
recognizes. -/
def validInstructions : List String :=
  ["FROM", "RUN", "CMD", "LABEL", "EXPOSE", "ENV", "ADD", "COPY",
   "ENTRYPOINT", "VOLUME", "USER", "WORKDIR", "ARG", "ONBUILD",
   "STOPSIGNAL", "HEALTHCHECK", "SHELL"]

/-- Line-continuation merge of `validateDockerfileSyntax`: while the
current line ends in a backslash and a following raw line exists, strip
the backslash and append the trimmed following line (the source
advances a shadowed copy of the loop index, so merged lines are also
revisited by the outer loop). -/
def contLine (lines : List String) : Nat → Nat → String → String
  | 0, _, line => line
  | fuel + 1, i, line =>
    if goHasSuf line "\\" ∧ i + 1 < lines.length then
      contLine lines fuel (i + 1)
        (goTrimSuf line "\\" ++ " " ++ goTrimSpace (lines.getD (i + 1) ""))
    else line

/-- Indexed loop of `validateDockerfileSyntax` over the split lines,
threading the `hasFROM` flag; called with fuel `lines.length` and index
`0` (line numbers in the source's error text are dropped). -/
def checkDockerfileLines (lines : List String) : Nat → Nat → Bool → Except String Unit
  | 0, _, hasFROM =>
    if hasFROM then .ok () else .error "Dockerfile must have a FROM instruction"
  | fuel + 1, i, hasFROM =>
    if i < lines.length then
      let line := goTrimSpace (lines.getD i "")
      if line = "" ∨ goHasPre line "#" then checkDockerfileLines lines fuel (i + 1) hasFROM
      else
        let line := contLine lines lines.length i line
        match goFields line with
        | [] => checkDockerfileLines lines fuel (i + 1) hasFROM
        | w :: _ =>
          let instruction := goToUpper w
          let hasFROM := hasFROM ∨ instruction = "FROM"
          if validInstructions.contains instruction ∨ goHasPre line "# " then
            checkDockerfileLines lines fuel (i + 1) hasFROM
          else if ¬ hasFROM ∧ goContains line "=" then
            checkDockerfileLines lines fuel (i + 1) hasFROM
          else .error "invalid instruction"
    else if hasFROM then .ok () else .error "Dockerfile must have a FROM instruction"

/-- Embedding of `validateDockerfileSyntax`: every non-comment line
must start with a recognized instruction keyword (or look like a
pre-`FROM` parser directive), and a `FROM` instruction must occur. -/
def validateDockerfileSyntax (content : String) : Except String Unit :=
  let lines := goSplitChar content '\n'
  checkDockerfileLines lines lines.length 0 false

/-- Embedding of `SyntaxInspector.Inspect`: applies the Dockerfile
grammar check to `file_write` calls whose path names a Dockerfile. -/
def syntaxInspect (tool : String) (args : Args) : Except String Unit :=
  if tool ≠ "file_write" then .ok ()
  else
    let path := getStr args "path"
    if path = "Dockerfile" ∨ goHasSuf path "/Dockerfile" then
      validateDockerfileSyntax (getStr args "content")
    else .ok ()

/-- State of `RepetitionInspector`: the bounded call-signature history
and the repetition threshold. -/
structure RepetitionInspector where
  history : List String
  maxReps : Nat
deriving DecidableEq

/-- Embedding of `NewRepetitionInspector` (a zero threshold defaults
to 3). -/
def NewRepetitionInspector (maxReps : Nat) : RepetitionInspector :=
  { history := [], maxReps := if maxReps = 0 then 3 else maxReps }

/-- Call signature `tool:args`; the source renders the argument map
with `fmt.Sprintf("%v", ...)`, modelled here by taking the rendered
argument text as given (identical argument maps render identically). -/
def repSig (tool argsRepr : String) : String := tool ++ ":" ++ argsRepr

/-- Embedding of `RepetitionInspector.Inspect`: fails when the history
already holds at least `maxReps` occurrences of the signature;
otherwise appends it, trimming the history to stay bounded. -/
def repInspect (i : RepetitionInspector) (tool argsRepr : String) :
    Except String Unit × RepetitionInspector :=
  let sig := repSig tool argsRepr
  let count := (i.history.filter (· = sig)).length
  if i.maxReps ≤ count then (.error "detected repetitive pattern", i)
  else
    let h := i.history ++ [sig]
    let h := if 100 < h.length then h.drop 50 else h
    (.ok (), { i with history := h })

/-- Runs a sequence of `(tool, argsRepr)` calls through one
`RepetitionInspector`, returning each call's success. -/
def repSeq (st : RepetitionInspector) : List (String × String) → List Bool × RepetitionInspector
  | [] => ([], st)
  | (t, a) :: rest =>
    let (r, st') := repInspect st t a
    let (rs, stF) := repSeq st' rest
    (exceptOk r :: rs, stF)

/-- Generated file set (`Output` in the source). -/
structure Output where
  Dockerfile : String
  DockerCompose : String
  Dockerignore : String
  EnvExample : String
deriving DecidableEq

/-- Embedding of `ToolDispatcher.WriteDockerFiles`: the write events it
performs.  Each non-empty member of the file set is written with
`os.WriteFile` at `filepath.Join(workDir, name)` directly — no
`securePath` call and no inspector runs (the source iterates a Go map,
so the order is arbitrary; the literal order is used here). -/
def writeDockerFiles (workDir : String) (o : Output) : List (String × String) :=
  ([("Dockerfile", o.Dockerfile), ("docker-compose.yml", o.DockerCompose),
    (".dockerignore", o.Dockerignore), (".env.example", o.EnvExample)].filter
      (fun p => p.2 ≠ "")).map (fun p => (goJoin workDir p.1, p.2))

/-- Failures of `FileWriteTool.Execute`. -/
inductive FileWriteErr where
  | pathRequired
  | sandbox (e : PathErr)
deriving DecidableEq

/-- Embedding of `FileWriteTool.Execute`: requires a path, validates it
with `securePath`, and on success performs exactly one write — the
returned `(fullPath, content)` pair (the source then creates missing
ancestor directories and writes the file there). -/
def fileWriteToolExecute (fs : Fsys) (workDir : String) (args : Args) :
    Except FileWriteErr (String × String) :=
  let path := getStr args "path"
  let content := getStr args "content"
  if path = "" then .error .pathRequired
  else
    match securePath fs workDir path with
    | .error e => .error (.sandbox e)
    | .ok fullPath => .ok (fullPath, content)

/-- A named inspector as held by the dispatcher. -/
abbrev NamedInspector := String × (String → Args → Except String Unit)

/-- Tool names registered by `NewToolDispatcher`. -/
def registeredTools : List String :=
  ["docker_build", "docker_run", "docker_logs", "docker_stop",
   "file_write", "file_read", "shell", "dockerizer_analyze", "dockerizer_generate"]

/-- Failures of `ToolDispatcher.Execute`. -/
inductive DispatchErr where
  | unknownTool (name : String)
  | inspectorRejected (inspector msg : String)
  | toolFailed (e : FileWriteErr)
deriving DecidableEq

/-- Observable outcome of a dispatched tool call: the write performed
by `file_write`, or the invocation of another (externally effectful)
tool. -/
inductive DispatchOutcome where
  | wrote (fullPath content : String)
  | invoked (tool : String)
deriving DecidableEq

/-- The dispatcher's inspector loop: the first rejecting inspector's
name and message, if any. -/
def inspectAll (inspectors : List NamedInspector) (name : String) (args : Args) :
    Option (String × String) :=
  inspectors.findSome? (fun ni =>
    match ni.2 name args with
    | .error m => some (ni.1, m)
    | .ok () => none)

/-- Embedding of `ToolDispatcher.Execute`: unknown tools fail, every
configured inspector runs before the tool, and only unanimous approval
reaches the tool's `Execute` (`file_write` is modelled concretely; the
remaining tools' external effects are opaque). -/
def dispatcherExecute (fs : Fsys) (workDir : String) (inspectors : List NamedInspector)
    (name : String) (args : Args) : Except DispatchErr DispatchOutcome :=
  if ¬ registeredTools.contains name then .error (.unknownTool name)
  else
    match inspectAll inspectors name args with
    | some (iname, m) => .error (.inspectorRejected iname m)
    | none =>
      if name = "file_write" then
        match fileWriteToolExecute fs workDir args with
        | .error e => .error (.toolFailed e)
        | .ok (fp, c) => .ok (.wrote fp c)
      else .ok (.invoked name)

/-- The inspector list actually configured on the dispatcher built by
`agent.New`: `SetInspectors` is never called anywhere in the
repository, so the dispatcher's `inspectors` slice stays empty and
`Execute` runs no inspectors. -/
def dispatcherInspectorsAsWired : List NamedInspector := []

/-- The inspector list `agent.New` constructs and stores in the unused
`Agent.inspectors` field: a security inspector followed by a syntax
inspector. -/
def agentNewInspectors : List NamedInspector :=
  [("security", securityInspect), ("syntax", syntaxInspect)]

/-- Record of a single attempt (`Attempt` in the source); wall-clock
times are modelled by an abstract monotone counter, with `EndTime`
optional so that "set on every return path" is observable. -/
structure Attempt where
  Number : Nat
  StartTime : Nat
  EndTime : Option Nat
  Success : Bool
  Error : String
  Output : Option Output
  BuildLog : String
  TestLog : String
deriving DecidableEq

/-- Overall agent result (`Result` in the source). -/
structure Result where
  Success : Bool
  StartTime : Nat
  EndTime : Option Nat
  Attempts : List Attempt
  FinalOutput : Option Output
deriving DecidableEq

/-- Externally observable actions of the loop: a generation request to
the AI collaborator with the instructions used, and a file write
performed by `WriteDockerFiles`. -/
inductive AgEvent where
  | genCall (attempt : Nat) (instructions : String)
  | fileWrite (path content : String)
deriving DecidableEq

/-- External collaborators of one run, indexed by attempt number:
`generate` is `provider.Generate` (the cancellation context is threaded
into it; a cancelled provider surfaces as its error), `writeErr` is an
`os.WriteFile` failure inside `WriteDockerFiles` (`none` when all
writes succeed), and `build`/`test` are the outcomes (combined output,
optional error text) of the dispatcher's `docker_build` and
`docker_run` calls — which reach the external tools directly, since the
dispatcher's as-wired inspector list is empty and both names are
registered. -/
structure AgentEnv where
  workDir : String
  generate : Nat → String → Except String Output
  writeErr : Nat → Option String
  build : Nat → String × Option String
  test : Nat → String × Option String

/-- Embedding of `Agent.runAttempt`: generate, write the file set,
build, test; the first failing step ends the attempt with its error
recorded and `EndTime` set.  The returned event list holds the
generation request and the writes performed. -/
def runAttemptM (env : AgentEnv) (instructions : String) (attemptNum clock : Nat) :
    Attempt × List AgEvent :=
  let a0 : Attempt :=
    { Number := attemptNum, StartTime := clock, EndTime := none, Success := false,
      Error := "", Output := none, BuildLog := "", TestLog := "" }
  match env.generate attemptNum instructions with
  | .error e => ({ a0 with Error := e, EndTime := some (clock + 1) }, [.genCall attemptNum instructions])
  | .ok o =>
    let writes := writeDockerFiles env.workDir o
    let evs := AgEvent.genCall attemptNum instructions :: writes.map (fun w => AgEvent.fileWrite w.1 w.2)
    let a1 := { a0 with Output := some o }
    match env.writeErr attemptNum with
    | some e => ({ a1 with Error := "failed to write files: " ++ e, EndTime := some (clock + 1) }, evs)
    | none =>
      match env.build attemptNum with
      | (bout, some e) =>
        ({ a1 with Error := "build failed: " ++ e, BuildLog := bout, EndTime := some (clock + 1) }, evs)
      | (bout, none) =>
        match env.test attemptNum with
        | (tout, some e) =>
          ({ a1 with BuildLog := bout, Error := "test failed: " ++ e, TestLog := tout, EndTime := some (clock + 1) }, evs)
        | (tout, none) =>
          ({ a1 with BuildLog := bout, TestLog := tout, Success := true, EndTime := some (clock + 1) }, evs)

/-- The instruction escalation of `Agent.Run`: the prior attempt's
error text is appended verbatim between fixed framing text. -/
def nextInstructions (instructions errText : String) : String :=
  instructions ++ "\n\nPrevious attempt failed with error:\n" ++ errText ++
    "\n\nPlease fix this issue."

/-- The attempt loop of `Agent.Run`, as a count-down over the remaining
attempts (`rem` plays `maxAttempts - attempt + 1` of the source's
counting loop): run an attempt, append its record, stop on success, and
otherwise escalate the instructions — only while further attempts
remain — and continue. -/
def agentLoop (env : AgentEnv) (maxAttempts : Nat) :
    Nat → Nat → String → Nat → List Attempt → List AgEvent → Result × List AgEvent
  | 0, _, _, clock, acc, tr =>
    ({ Success := false, StartTime := 0, EndTime := some clock, Attempts := acc,
       FinalOutput := none }, tr)
  | rem + 1, attempt, instructions, clock, acc, tr =>
    let r := runAttemptM env instructions attempt clock
    let acc' := acc ++ [r.1]
    let tr' := tr ++ r.2
    if r.1.Success then
      ({ Success := true, StartTime := 0, EndTime := some (clock + 2), Attempts := acc',
         FinalOutput := r.1.Output }, tr')
    else
      let instructions' :=
        if attempt < maxAttempts then nextInstructions instructions r.1.Error else instructions
      agentLoop env maxAttempts rem (attempt + 1) instructions' (clock + 2) acc' tr'

/-- Embedding of `Agent.Run`: attempts run from 1 up to `maxAttempts`. -/
def agentRun (env : AgentEnv) (maxAttempts : Nat) (instructions : String) :
    Result × List AgEvent :=
  agentLoop env maxAttempts maxAttempts 1 instructions 0 [] []

/-- The full Go return value of `Agent.Run`, whose only return
statement is `return result, nil`: the second component is the Go
`error`. -/
def agentRunWithError (env : AgentEnv) (maxAttempts : Nat) (instructions : String) :
    (Result × List AgEvent) × Option String :=
  (agentRun env maxAttempts instructions, none)

/-- The generation requests of a trace: attempt number and the
instructions handed to the collaborator. -/
def genCalls (tr : List AgEvent) : List (Nat × String) :=
  tr.filterMap (fun e =>
    match e with
    | .genCall n s => some (n, s)
    | _ => none)

/-! ### Concrete fixtures used by the closed theorems below -/

/-- A filesystem holding only the directories `/a` and `/a/b`. -/
def fsAB : Fsys := [(["a"], .dir), (["a", "b"], .dir)]

/-- A filesystem where `/a/b/evil` is a symlink pointing at the outside
directory `/etc`. -/
def fsSym : Fsys :=
  [(["a"], .dir), (["a", "b"], .dir), (["etc"], .dir),
   (["etc", "passwd"], .file), (["a", "b", "evil"], .symlink "/etc")]

/-- A filesystem holding only the working directory `/work`. -/
def fsWork : Fsys := [(["work"], .dir)]

/-- A `file_write` tool call writing a Dockerfile with no `FROM`
instruction. -/
def argsNoFrom : Args := [("path", .str "Dockerfile"), ("content", .str "RUN echo hi")]

/-- Collaborator whose generation always succeeds with a fixed file
set and whose build fails on attempts 1 and 2 and succeeds from
attempt 3 on. -/
def envBuildFailTwice : AgentEnv :=
  { workDir := "/work"
    generate := fun _ _ => .ok (Output.mk "FROM alpine" "" "" "")
    writeErr := fun _ => none
    build := fun n => if n ≤ 2 then ("buildlog", some ("no such base image " ++ toString n)) else ("buildlog3", none)
    test := fun _ => ("testlog", none) }

/-- Collaborator whose test step always fails. -/
def envTestAlwaysFails : AgentEnv :=
  { workDir := "/work"
    generate := fun _ _ => .ok (Output.mk "FROM alpine" "" "" "")
    writeErr := fun _ => none
    build := fun _ => ("buildlog", none)
    test := fun _ => ("testlog", some "container exited with status: exited") }

/-- Collaborator behind a cancelled context: every generation call
returns the context's cancellation error. -/
def envCancelled : AgentEnv :=
  { workDir := "/work"
    generate := fun _ _ => .error "context canceled"
    writeErr := fun _ => none
    build := fun _ => ("", none)
    test := fun _ => ("", none) }

/-- Collaborator producing a Dockerfile that the (unwired) syntax
inspector rejects, with a failing build. -/
def envNoFrom : AgentEnv :=
  { workDir := "/work"
    generate := fun _ _ => .ok (Output.mk "RUN echo hi" "" "" "")
    writeErr := fun _ => none
    build := fun _ => ("buildlog", some "parse error")
    test := fun _ => ("", none) }

/-! ### Helper lemmas -/

theorem strData_append (a b : String) : (a ++ b).data = a.data ++ b.data := rfl

theorem goContains_append_mid (a e b : String) : goContains (a ++ e ++ b) e = true := by
  apply decide_eq_true
  show e.data <:+: (a ++ e ++ b).data
  have h : (a ++ e ++ b).data = a.data ++ e.data ++ b.data := rfl
  rw [h]
  exact List.infix_append a.data e.data b.data

theorem nextInstructions_contains (i e : String) :
    goContains (nextInstructions i e) e = true :=
  goContains_append_mid (i ++ "\n\nPrevious attempt failed with error:\n") e
    "\n\nPlease fix this issue."

/-! ### C9: the repetition inspector -/

/-- C9.  A `RepetitionInspector` with threshold 3 and empty history
approves three identical `(tool, arguments)` calls and rejects the
fourth; in general, `Inspect` fails exactly when the history already
holds at least `maxReps` occurrences of the call's signature. -/
theorem C9_repetition_inspector :
    (∀ (st : RepetitionInspector) (tool argsRepr : String),
        exceptOk (repInspect st tool argsRepr).1 = false ↔
          st.maxReps ≤ (st.history.filter (· = repSig tool argsRepr)).length) ∧
    (repSeq (NewRepetitionInspector 3)
        [("file_write", "map[path:Dockerfile]"), ("file_write", "map[path:Dockerfile]"),
         ("file_write", "map[path:Dockerfile]"), ("file_write", "map[path:Dockerfile]")]).1 =
      [true, true, true, false] := by
  constructor
  · intro st tool argsRepr
    by_cases h : st.maxReps ≤ (st.history.filter (· = repSig tool argsRepr)).length
    · simp [repInspect, h, exceptOk]
    · simp [repInspect, h, exceptOk]
  · decide

/-! ### C4: docker-compose sub-verb validation -/

theorem validateComposeArgsFrom_err_iff (full : List String) : ∀ rem : List String,
    exceptOk (validateComposeArgsFrom full rem) = false ↔
      "run" ∈ rem ∨ ("exec" ∈ rem ∧ composeExecBad full = true) := by
  intro rem
  induction rem with
  | nil => simp [validateComposeArgsFrom, exceptOk]
  | cons a rest ih =>
    unfold validateComposeArgsFrom
    by_cases h1 : a = "exec" ∧ composeExecBad full = true
    · rw [if_pos h1]
      simp only [exceptOk, List.mem_cons]
      exact iff_of_true trivial (Or.inr ⟨Or.inl h1.1.symm, h1.2⟩)
    · rw [if_neg h1]
      by_cases h2 : a = "run"
      · rw [if_pos h2]
        simp only [exceptOk, List.mem_cons]
        exact iff_of_true trivial (Or.inl (Or.inl h2.symm))
      · rw [if_neg h2]
        rw [ih]
        constructor
        · rintro (h | ⟨h, hb⟩)
          · exact Or.inl (List.mem_cons_of_mem a h)
          · exact Or.inr ⟨List.mem_cons_of_mem a h, hb⟩
        · rintro (h | ⟨h, hb⟩)
          · rcases List.mem_cons.mp h with h | h
            · exact absurd h.symm h2
            · exact Or.inl h
          · rcases List.mem_cons.mp h with h | h
            · exact absurd ⟨h.symm, hb⟩ h1
            · exact Or.inr ⟨h, hb⟩

/-- C4 counterexample.  `docker-compose exec -T web sh` contains the
`exec` sub-verb yet passes `validateDockerComposeCommand` (the `-T`
follower is in the allowed list), refuting "rejected regardless of the
remaining arguments". -/
theorem C4_counterexample :
    validateDockerComposeCommand ["exec", "-T", "web", "sh"] = .ok () ∧
    "exec" ∈ ["exec", "-T", "web", "sh"] := by
  constructor
  · rfl
  · decide

/-- C4 (amended).  The compose validator rejects an argument list
exactly when it contains the `run` sub-verb, or when some occurrence of
`exec` is immediately followed by an argument other than `-T` and
`--no-TTY` that does not start with `-`; in particular `exec` followed
only by flag-like tokens, or `exec` as the final token, passes. -/
theorem C4_amended_compose_rules (args : List String) :
    exceptOk (validateDockerComposeCommand args) = false ↔
      ("run" ∈ args ∨ composeExecBad args = true) := by
  unfold validateDockerComposeCommand
  rw [validateComposeArgsFrom_err_iff]
  constructor
  · rintro (h | ⟨_, hb⟩)
    · exact Or.inl h
    · exact Or.inr hb
  · rintro (h | hb)
    · exact Or.inl h
    · refine Or.inr ⟨?_, hb⟩
      rcases List.any_eq_true.mp hb with ⟨pr, hmem, hpred⟩
      have h1 : pr.1 = "exec" := by
        simp only [decide_eq_true_eq, Bool.and_eq_true] at hpred
        exact hpred.1
      have h2 := (List.of_mem_zip hmem).1
      rw [h1] at h2
      exact h2

/-! ### C5: program-name allowlisting -/

/-- C5.  Any command line whose first whitespace-delimited token's base
name is neither `docker` nor `docker-compose` is rejected by
`validateShellCommand` (a `DisallowedCommand` in the specification's
taxonomy, which covers every validator rejection), and
`ShellTool.Execute` spawns no subprocess for it. -/
theorem C5_disallowed_command (workDir command p0 : String) (rest : List String)
    (hf : goFields (goTrimSpace command) = p0 :: rest)
    (hd : goBase p0 ≠ "docker") (hc : goBase p0 ≠ "docker-compose") :
    exceptOk (validateShellCommand workDir command) = false ∧
    exceptOk (shellToolExecute workDir command) = false := by
  have hv : exceptOk (validateShellCommand workDir command) = false := by
    simp only [validateShellCommand]
    cases hbc : blockedChars.find? (fun c => goContainsChar (goTrimSpace command) c) with
    | some c => simp [exceptOk]
    | none =>
      by_cases hch : goContains (goTrimSpace command) "&&" = true ∨
          goContains (goTrimSpace command) "||" = true
      · rw [if_pos hch]
        simp [exceptOk]
      · rw [if_neg hch, hf]
        simp [exceptOk, hd, hc]
  refine ⟨hv, ?_⟩
  have hne : command ≠ "" := by
    intro h
    rw [h] at hf
    have hemp : goFields (goTrimSpace "") = ([] : List String) := by decide
    rw [hemp] at hf
    exact List.noConfusion hf
  simp only [shellToolExecute]
  rw [if_neg hne]
  cases hv2 : validateShellCommand workDir command with
  | error e => simp [exceptOk]
  | ok u =>
    rw [hv2] at hv
    simp [exceptOk] at hv

/-- C5 witness: the concrete command line `ls -la /etc` is rejected and
never spawned. -/
theorem C5_witness :
    goFields (goTrimSpace "ls -la /etc") = "ls" :: ["-la", "/etc"] ∧
    goBase "ls" ≠ "docker" ∧ goBase "ls" ≠ "docker-compose" ∧
    (exceptOk (validateShellCommand "/work" "ls -la /etc") = false ∧
     exceptOk (shellToolExecute "/work" "ls -la /etc") = false) :=
  ⟨by decide, by decide, by decide,
    C5_disallowed_command "/work" "ls -la /etc" "ls" ["-la", "/etc"]
      (by decide) (by decide) (by decide)⟩

/-! ### C3: volume-mount host-source validation -/

theorem isPrefixOf_trans {a b c : List Char}
    (h1 : a.isPrefixOf b = true) (h2 : b.isPrefixOf c = true) :
    a.isPrefixOf c = true := by
  rw [List.isPrefixOf_iff_prefix] at *
  exact h1.trans h2

/-- A string with a prefix that itself starts with `/` starts with `/`. -/
theorem abs_of_hasPre_slash {h pre : String}
    (hpre : goHasPre pre "/" = true) (hh : goHasPre h pre = true) :
    isAbs h = true :=
  isPrefixOf_trans hpre hh

/-- A relative host path never matches the sensitive-root scan. -/
theorem sensitive_find_none (h : String) (hab : isAbs h = false) :
    sensitiveRoots.find? (fun s => h = s ∨ goHasPre h (s ++ "/")) = none := by
  rw [List.find?_eq_none]
  intro s hs
  fin_cases hs <;>
    · simp only [decide_eq_true_eq, not_or]
      constructor
      · intro he
        rw [he] at hab
        exact absurd hab (by decide)
      · intro hp
        exact absurd (abs_of_hasPre_slash (by decide) hp) (by simp [hab])

/-- C3 counterexample.  The host source `/workevil` is an absolute path
outside the sandbox root `/work`, yet the full docker command line
carrying it as a `-v` source passes validation: the within-root check
uses a string-prefix test with no separator guard. -/
theorem C3_counterexample :
    validateShellCommand "/work" "docker run -v /workevil:/data img" = .ok () ∧
    isAbs "/workevil" = true ∧ isPathWithin "/workevil" "/work" = false := by
  refine ⟨by decide, by decide, by decide⟩

/-- C3 (amended).  For a `-v`/`--volume` specification: the extracted
host source is rejected when it is absolute and the sandbox root is not
a plain string prefix of it (no separator guard, so a sibling such as
`/workevil` extends root `/work` and is accepted), when it contains the
substring `..` anywhere, or when it equals a sensitive system root or
extends one past a separator; a relative host source without `..` is
accepted.  (The `--mount` form is checked separately and only against
the substrings `type=bind`, `source=/` and `source=<root>`.) -/
theorem C3_amended_volume_checks :
    (∀ workDir spec : String, spec ≠ "" →
        validateVolumeMount workDir "-v" ["-v", spec] = checkVolumeSpec workDir spec) ∧
    (∀ workDir spec host : String, (goSplitChar spec ':').headD "" = host →
        isAbs host = true →
        goHasPre (goAbs host) (goAbs workDir) = false →
        exceptOk (checkVolumeSpec workDir spec) = false) ∧
    (∀ workDir spec host : String, (goSplitChar spec ':').headD "" = host →
        goContains host ".." = true →
        exceptOk (checkVolumeSpec workDir spec) = false) ∧
    (∀ workDir spec host s : String, (goSplitChar spec ':').headD "" = host →
        s ∈ sensitiveRoots →
        (host = s ∨ goHasPre host (s ++ "/") = true) →
        exceptOk (checkVolumeSpec workDir spec) = false) ∧
    (∀ workDir spec host : String, (goSplitChar spec ':').headD "" = host →
        isAbs host = false →
        goContains host ".." = false →
        checkVolumeSpec workDir spec = .ok ()) := by
  refine ⟨?_, ?_, ?_, ?_, ?_⟩
  · intro workDir spec hne
    have h1 : goContains "-v" "=" = false := by decide
    have h2 : findNextArg ["-v", spec] "-v" = some spec := rfl
    simp [validateVolumeMount, h1, h2, hne]
  · intro workDir spec host hh habs hpre
    simp only [checkVolumeSpec]
    rw [hh]
    rw [if_pos ⟨habs, by simp [hpre]⟩]
    simp [exceptOk]
  · intro workDir spec host hh hdots
    simp only [checkVolumeSpec]
    rw [hh]
    by_cases h1 : isAbs host = true ∧ ¬ goHasPre (goAbs host) (goAbs workDir) = true
    · rw [if_pos h1]
      simp [exceptOk]
    · rw [if_neg h1, if_pos hdots]
      simp [exceptOk]
  · intro workDir spec host s hh hs hmatch
    simp only [checkVolumeSpec]
    rw [hh]
    by_cases h1 : isAbs host = true ∧ ¬ goHasPre (goAbs host) (goAbs workDir) = true
    · rw [if_pos h1]
      simp [exceptOk]
    · rw [if_neg h1]
      by_cases h2 : goContains host ".." = true
      · rw [if_pos h2]
        simp [exceptOk]
      · rw [if_neg h2]
        split
        · simp [exceptOk]
        · rename_i heq
          rw [List.find?_eq_none] at heq
          have hcon := heq s hs
          simp only [decide_eq_true_eq] at hcon
          exact absurd hmatch hcon
  · intro workDir spec host hh hab hdots
    simp only [checkVolumeSpec]
    rw [hh]
    rw [if_neg (by simp [hab])]
    rw [if_neg (by simp [hdots])]
    rw [sensitive_find_none _ hab]

/-- C3 witness: the relative host source `data` (spec `data:/app`)
inside the sandbox is accepted. -/
theorem C3_witness :
    (goSplitChar "data:/app" ':').headD "" = "data" ∧
    isAbs "data" = false ∧ goContains "data" ".." = false ∧
    checkVolumeSpec "/work" "data:/app" = .ok () :=
  ⟨by decide, by decide, by decide,
    C3_amended_volume_checks.2.2.2.2 "/work" "data:/app" "data"
      (by decide) (by decide) (by decide)⟩

/-! ### C2: the path sandbox -/

/-- C2 counterexample.  The relative path `x/../y` contains a `..`
segment, yet `securePath` accepts it: the lexical clean cancels the
`..` inside the root, so no `PathEscape` error is produced. -/
theorem C2_counterexample :
    goContains "x/../y" ".." = true ∧ isAbs "x/../y" = false ∧
    securePath fsAB "/a/b" "x/../y" = .ok "/a/b/y" :=
  ⟨by decide, by decide, by decide⟩

/-- C2 (amended).  `securePath` rejects with the escape error every
relative path whose full resolution (when the target exists), or the
resolution of its nearest existing ancestor (when it does not), lies
outside the canonicalized root; a successful result is always the
lexical join of the root with the cleaned path and only arises for
relative inputs; and the within-root check appends a trailing
separator, so a sibling directory whose name extends the root's name is
rejected.  A `..` segment by itself does not cause rejection when the
lexically cleaned join stays inside the root. -/
theorem C2_amended_securePath :
    (∀ (fs : Fsys) (baseDir p rb r : String),
        isAbs p = false →
        evalSymlinks fs baseDir = some rb →
        evalSymlinks fs (goJoin baseDir (goClean p)) = some r →
        isPathWithin (goAbs r) (goAbs rb) = false →
        securePath fs baseDir p = .error .escape) ∧
    (∀ (fs : Fsys) (baseDir p rb rp : String),
        isAbs p = false →
        evalSymlinks fs baseDir = some rb →
        evalSymlinks fs (goJoin baseDir (goClean p)) = none →
        (evalSymlinks fs (goDir (goJoin baseDir (goClean p))) = some rp ∨
          (evalSymlinks fs (goDir (goJoin baseDir (goClean p))) = none ∧
           resolveExistingParent fs (goDir (goJoin baseDir (goClean p))) = some rp)) →
        isPathWithin (goAbs rp) (goAbs rb) = false →
        securePath fs baseDir p = .error .escape) ∧
    (∀ (fs : Fsys) (baseDir p q : String),
        securePath fs baseDir p = .ok q →
        q = goJoin baseDir (goClean p) ∧ isAbs p = false) ∧
    isPathWithin "/home/username" "/home/user" = false := by
  refine ⟨?_, ?_, ?_, by decide⟩
  · intro fs baseDir p rb r hp hb hf hw
    unfold securePath
    rw [if_neg (by simp [hp])]
    simp only [hb, hf]
    rw [if_neg (by simp [hw])]
  · intro fs baseDir p rb rp hp hb hf hpar hw
    unfold securePath
    rw [if_neg (by simp [hp])]
    simp only [hb, hf]
    rcases hpar with hsome | ⟨hnone, hrep⟩
    · simp only [hsome]
      rw [if_neg (by simp [hw])]
    · simp only [hnone, hrep]
      rw [if_neg (by simp [hw])]
  · intro fs baseDir p q h
    unfold securePath at h
    split at h
    · exact absurd h (by simp)
    · rename_i hnabs
      have habs : isAbs p = false := by simpa using hnabs
      refine ⟨?_, habs⟩
      split at h
      · exact absurd h (by simp)
      · simp only [] at h
        split at h
        · split at h
          · exact ((Except.ok.injEq _ _).mp h).symm
          · exact absurd h (by simp)
        · split at h
          · exact absurd h (by simp)
          · split at h
            · exact ((Except.ok.injEq _ _).mp h).symm
            · exact absurd h (by simp)

/-- C2 witness: a symlink planted at the leaf inside the sandbox,
pointing at `/etc`, resolves outside the root, and the amended theorem
yields the escape error for it. -/
theorem C2_witness :
    isAbs "evil" = false ∧
    evalSymlinks fsSym "/a/b" = some "/a/b" ∧
    evalSymlinks fsSym (goJoin "/a/b" (goClean "evil")) = some "/etc" ∧
    isPathWithin (goAbs "/etc") (goAbs "/a/b") = false ∧
    securePath fsSym "/a/b" "evil" = .error .escape :=
  ⟨by decide, by decide, by decide, by decide,
    C2_amended_securePath.1 fsSym "/a/b" "evil" "/a/b" "/etc"
      (by decide) (by decide) (by decide) (by decide)⟩

/-! ### Agent-loop helper lemmas -/

theorem runAttemptM_genFail (env : AgentEnv) (instr : String) (n c : Nat) (e : String)
    (hg : env.generate n instr = .error e) :
    runAttemptM env instr n c =
      ({ Number := n, StartTime := c, EndTime := some (c + 1), Success := false, Error := e,
         Output := none, BuildLog := "", TestLog := "" }, [.genCall n instr]) := by
  simp only [runAttemptM, hg]

theorem runAttemptM_buildFail (env : AgentEnv) (instr : String) (n c : Nat) (o : Output)
    (bl e : String) (hg : env.generate n instr = .ok o) (hw : env.writeErr n = none)
    (hb : env.build n = (bl, some e)) :
    runAttemptM env instr n c =
      ({ Number := n, StartTime := c, EndTime := some (c + 1), Success := false,
         Error := "build failed: " ++ e, Output := some o, BuildLog := bl, TestLog := "" },
       AgEvent.genCall n instr ::
         (writeDockerFiles env.workDir o).map (fun w => AgEvent.fileWrite w.1 w.2)) := by
  simp only [runAttemptM, hg, hw, hb]

theorem runAttemptM_testFail (env : AgentEnv) (instr : String) (n c : Nat) (o : Output)
    (bl tl e : String) (hg : env.generate n instr = .ok o) (hw : env.writeErr n = none)
    (hb : env.build n = (bl, none)) (ht : env.test n = (tl, some e)) :
    runAttemptM env instr n c =
      ({ Number := n, StartTime := c, EndTime := some (c + 1), Success := false,
         Error := "test failed: " ++ e, Output := some o, BuildLog := bl, TestLog := tl },
       AgEvent.genCall n instr ::
         (writeDockerFiles env.workDir o).map (fun w => AgEvent.fileWrite w.1 w.2)) := by
  simp only [runAttemptM, hg, hw, hb, ht]

theorem runAttemptM_allOk (env : AgentEnv) (instr : String) (n c : Nat) (o : Output)
    (bl tl : String) (hg : env.generate n instr = .ok o) (hw : env.writeErr n = none)
    (hb : env.build n = (bl, none)) (ht : env.test n = (tl, none)) :
    runAttemptM env instr n c =
      ({ Number := n, StartTime := c, EndTime := some (c + 1), Success := true,
         Error := "", Output := some o, BuildLog := bl, TestLog := tl },
       AgEvent.genCall n instr ::
         (writeDockerFiles env.workDir o).map (fun w => AgEvent.fileWrite w.1 w.2)) := by
  simp only [runAttemptM, hg, hw, hb, ht]

theorem runAttemptM_endTime (env : AgentEnv) (instr : String) (n c : Nat) :
    (runAttemptM env instr n c).1.EndTime = some (c + 1) := by
  unfold runAttemptM
  repeat' split
  all_goals rfl

theorem genCalls_append (a b : List AgEvent) : genCalls (a ++ b) = genCalls a ++ genCalls b :=
  List.filterMap_append a b _

theorem genCalls_fileWrites (ws : List (String × String)) :
    genCalls (ws.map (fun w => AgEvent.fileWrite w.1 w.2)) = [] := by
  induction ws with
  | nil => rfl
  | cons w rest ih => simp [genCalls]

theorem agentLoop_fail_step (env : AgentEnv) (maxA rem attempt : Nat) (instr : String)
    (clock : Nat) (acc : List Attempt) (tr : List AgEvent)
    (hfail : (runAttemptM env instr attempt clock).1.Success = false) :
    agentLoop env maxA (rem + 1) attempt instr clock acc tr =
      agentLoop env maxA rem (attempt + 1)
        (if attempt < maxA then
          nextInstructions instr (runAttemptM env instr attempt clock).1.Error
        else instr)
        (clock + 2) (acc ++ [(runAttemptM env instr attempt clock).1])
        (tr ++ (runAttemptM env instr attempt clock).2) := by
  simp only [agentLoop]
  rw [if_neg (by simp [hfail])]

theorem agentLoop_succ_step (env : AgentEnv) (maxA rem attempt : Nat) (instr : String)
    (clock : Nat) (acc : List Attempt) (tr : List AgEvent)
    (hsucc : (runAttemptM env instr attempt clock).1.Success = true) :
    agentLoop env maxA (rem + 1) attempt instr clock acc tr =
      ({ Success := true, StartTime := 0, EndTime := some (clock + 2),
         Attempts := acc ++ [(runAttemptM env instr attempt clock).1],
         FinalOutput := (runAttemptM env instr attempt clock).1.Output },
       tr ++ (runAttemptM env instr attempt clock).2) := by
  simp only [agentLoop]
  rw [if_pos hsucc]

theorem agentLoop_length_le (env : AgentEnv) (maxA : Nat) :
    ∀ (rem attempt : Nat) (instr : String) (clock : Nat) (acc : List Attempt)
      (tr : List AgEvent),
      (agentLoop env maxA rem attempt instr clock acc tr).1.Attempts.length ≤
        acc.length + rem := by
  intro rem
  induction rem with
  | zero => intro attempt instr clock acc tr; simp [agentLoop]
  | succ rem ih =>
    intro attempt instr clock acc tr
    by_cases hs : (runAttemptM env instr attempt clock).1.Success = true
    · rw [agentLoop_succ_step env maxA rem attempt instr clock acc tr hs]
      simp
    · rw [agentLoop_fail_step env maxA rem attempt instr clock acc tr
        (by simpa using hs)]
      have := ih (attempt + 1)
        (if attempt < maxA then
          nextInstructions instr (runAttemptM env instr attempt clock).1.Error
        else instr)
        (clock + 2) (acc ++ [(runAttemptM env instr attempt clock).1])
        (tr ++ (runAttemptM env instr attempt clock).2)
      simp at this ⊢
      omega

theorem agentLoop_length_ge (env : AgentEnv) (maxA : Nat) :
    ∀ (rem attempt : Nat) (instr : String) (clock : Nat) (acc : List Attempt)
      (tr : List AgEvent),
      acc.length ≤ (agentLoop env maxA rem attempt instr clock acc tr).1.Attempts.length := by
  intro rem
  induction rem with
  | zero => intro attempt instr clock acc tr; simp [agentLoop]
  | succ rem ih =>
    intro attempt instr clock acc tr
    by_cases hs : (runAttemptM env instr attempt clock).1.Success = true
    · rw [agentLoop_succ_step env maxA rem attempt instr clock acc tr hs]
      simp
    · rw [agentLoop_fail_step env maxA rem attempt instr clock acc tr
        (by simpa using hs)]
      have := ih (attempt + 1)
        (if attempt < maxA then
          nextInstructions instr (runAttemptM env instr attempt clock).1.Error
        else instr)
        (clock + 2) (acc ++ [(runAttemptM env instr attempt clock).1])
        (tr ++ (runAttemptM env instr attempt clock).2)
      simp at this
      omega

theorem agentLoop_endTime (env : AgentEnv) (maxA : Nat) :
    ∀ (rem attempt : Nat) (instr : String) (clock : Nat) (acc : List Attempt)
      (tr : List AgEvent),
      (∀ a ∈ acc, a.EndTime.isSome = true) →
      ∀ a ∈ (agentLoop env maxA rem attempt instr clock acc tr).1.Attempts,
        a.EndTime.isSome = true := by
  intro rem
  induction rem with
  | zero =>
    intro attempt instr clock acc tr hacc a ha
    simp only [agentLoop] at ha
    exact hacc a ha
  | succ rem ih =>
    intro attempt instr clock acc tr hacc a ha
    have hstep : ∀ b ∈ acc ++ [(runAttemptM env instr attempt clock).1],
        b.EndTime.isSome = true := by
      intro b hb
      rcases List.mem_append.mp hb with hb | hb
      · exact hacc b hb
      · rcases List.mem_singleton.mp hb with rfl
        rw [runAttemptM_endTime]
        rfl
    by_cases hs : (runAttemptM env instr attempt clock).1.Success = true
    · rw [agentLoop_succ_step env maxA rem attempt instr clock acc tr hs] at ha
      exact hstep a ha
    · rw [agentLoop_fail_step env maxA rem attempt instr clock acc tr
        (by simpa using hs)] at ha
      exact ih (attempt + 1) _ (clock + 2) _ _ hstep a ha

theorem agentLoop_all_genFail (env : AgentEnv) (maxA : Nat) (ce : String)
    (hgen : ∀ n s, env.generate n s = .error ce) :
    ∀ (rem attempt : Nat) (instr : String) (clock : Nat) (acc : List Attempt)
      (tr : List AgEvent),
      (agentLoop env maxA rem attempt instr clock acc tr).1.Success = false ∧
      (agentLoop env maxA rem attempt instr clock acc tr).1.Attempts.length =
        acc.length + rem ∧
      (genCalls (agentLoop env maxA rem attempt instr clock acc tr).2).length =
        (genCalls tr).length + rem := by
  intro rem
  induction rem with
  | zero => intro attempt instr clock acc tr; simp [agentLoop]
  | succ rem ih =>
    intro attempt instr clock acc tr
    have hr := runAttemptM_genFail env instr attempt clock ce (hgen attempt instr)
    have hfail : (runAttemptM env instr attempt clock).1.Success = false := by rw [hr]
    rw [agentLoop_fail_step env maxA rem attempt instr clock acc tr hfail]
    have := ih (attempt + 1)
      (if attempt < maxA then
        nextInstructions instr (runAttemptM env instr attempt clock).1.Error
      else instr)
      (clock + 2) (acc ++ [(runAttemptM env instr attempt clock).1])
      (tr ++ (runAttemptM env instr attempt clock).2)
    refine ⟨this.1, ?_, ?_⟩
    · rw [this.2.1]
      simp
      omega
    · rw [this.2.2, hr]
      simp [genCalls_append, genCalls]
      omega

/-! ### C6: dispatcher inspection of Dockerfile writes -/

/-- C6.  Evaluation at the failing input: through the dispatcher as
`agent.New` wires it (no `SetInspectors` call anywhere, so the
inspector list is empty), a `file_write` of a Dockerfile with no `FROM`
instruction is not rejected — the file is written and `Execute` returns
success — even though the syntax inspector `agent.New` constructs (but
never wires) rejects exactly this call, and a dispatcher carrying that
inspector list would return the `InspectorRejected` error without
writing. -/
theorem C6_wiring_bug_eval :
    dispatcherExecute fsWork "/work" dispatcherInspectorsAsWired "file_write" argsNoFrom =
      .ok (.wrote "/work/Dockerfile" "RUN echo hi") ∧
    syntaxInspect "file_write" argsNoFrom =
      .error "Dockerfile must have a FROM instruction" ∧
    dispatcherExecute fsWork "/work" agentNewInspectors "file_write" argsNoFrom =
      .error (.inspectorRejected "syntax" "Dockerfile must have a FROM instruction") :=
  ⟨by decide, by decide, by decide⟩

/-! ### C1: writes and the sandbox/inspector chokepoint -/

/-- C1 counterexample.  During an attempt the generated file set is
written by `WriteDockerFiles` even when the inspector pipeline (the
security and syntax inspectors `agent.New` constructs) rejects the
corresponding `file_write` call: the FROM-less Dockerfile below is
written to `/work/Dockerfile` by the attempt, yet the pipeline rejects
it, so the write was never approved by the inspectors. -/
theorem C1_counterexample :
    AgEvent.fileWrite "/work/Dockerfile" "RUN echo hi" ∈ (agentRun envNoFrom 1 "init").2 ∧
    inspectAll agentNewInspectors "file_write" argsNoFrom =
      some ("syntax", "Dockerfile must have a FROM instruction") ∧
    getStr argsNoFrom "path" = "Dockerfile" ∧
    getStr argsNoFrom "content" = "RUN echo hi" :=
  ⟨by decide, by decide, by decide, by decide⟩

/-- C1 (amended).  The `file_write` tool passes every path through the
Path Sandbox (`securePath`) before writing, and the shell tool passes
every command through the validator before spawning; the generated file
set, however, is written by `WriteDockerFiles` directly to the four
fixed file names joined under the working directory, without the
sandbox or the inspector pipeline. -/
theorem C1_amended_sandboxed_tools :
    (∀ (fs : Fsys) (workDir : String) (args : Args) (w : String × String),
        fileWriteToolExecute fs workDir args = .ok w →
        securePath fs workDir (getStr args "path") = .ok w.1 ∧
          w.2 = getStr args "content") ∧
    (∀ (workDir command : String) (s : String × List String × String),
        shellToolExecute workDir command = .ok s →
        validateShellCommand workDir command = .ok () ∧
          s = ("sh", ["-c", command], workDir)) ∧
    (∀ (workDir : String) (o : Output) (w : String × String),
        w ∈ writeDockerFiles workDir o →
        ∃ name, name ∈ ["Dockerfile", "docker-compose.yml", ".dockerignore", ".env.example"] ∧
          w.1 = goJoin workDir name) := by
  refine ⟨?_, ?_, ?_⟩
  · intro fs workDir args w h
    simp only [fileWriteToolExecute] at h
    split at h
    · exact absurd h (by simp)
    · split at h
      · exact absurd h (by simp)
      · rename_i fullPath heq
        have hw : (fullPath, getStr args "content") = w := by
          simpa using h
        rw [← hw]
        exact ⟨heq, rfl⟩
  · intro workDir command s h
    simp only [shellToolExecute] at h
    split at h
    · exact absurd h (by simp)
    · split at h
      · exact absurd h (by simp)
      · rename_i u heq
        have hs : ("sh", ["-c", command], workDir) = s := by simpa using h
        exact ⟨heq, hs.symm⟩
  · intro workDir o w h
    simp only [writeDockerFiles] at h
    rcases List.mem_map.mp h with ⟨pr, hpr, heq⟩
    have hmem := (List.mem_filter.mp hpr).1
    rw [← heq]
    simp only [List.mem_cons, List.not_mem_nil, or_false] at hmem
    rcases hmem with rfl | rfl | rfl | rfl
    · exact ⟨"Dockerfile", by simp, rfl⟩
    · exact ⟨"docker-compose.yml", by simp, rfl⟩
    · exact ⟨".dockerignore", by simp, rfl⟩
    · exact ⟨".env.example", by simp, rfl⟩

/-- C1 witness: a concrete `file_write` through the tool passed the
sandbox. -/
theorem C1_witness :
    fileWriteToolExecute fsWork "/work" [("path", .str "notes.txt"), ("content", .str "x")] =
      .ok ("/work/notes.txt", "x") ∧
    securePath fsWork "/work"
        (getStr [("path", .str "notes.txt"), ("content", .str "x")] "path") =
      .ok "/work/notes.txt" :=
  ⟨by decide,
    (C1_amended_sandboxed_tools.1 fsWork "/work"
      [("path", .str "notes.txt"), ("content", .str "x")] ("/work/notes.txt", "x")
      (by decide)).1⟩

/-! ### C7: the retry loop scenarios -/

/-- C7.  With `maxAttempts = 3` and a collaborator whose build fails on
attempts 1 and 2 and succeeds on attempt 3, the run succeeds with
exactly 3 attempts and attempt 3's instructions contain attempt 2's
error text verbatim; with `maxAttempts = 2` and a collaborator whose
test step always fails, the run fails with exactly 2 attempts; and no
run ever records more attempts than `maxAttempts`. -/
theorem C7_agent_loop_scenarios :
    (∀ (env : AgentEnv) (i0 : String) (o1 o2 o3 : Output) (bl1 bl2 bl3 tl3 e1 e2 : String),
        (∀ s, env.generate 1 s = .ok o1) →
        (∀ s, env.generate 2 s = .ok o2) →
        (∀ s, env.generate 3 s = .ok o3) →
        (∀ n, env.writeErr n = none) →
        env.build 1 = (bl1, some e1) →
        env.build 2 = (bl2, some e2) →
        env.build 3 = (bl3, none) →
        env.test 3 = (tl3, none) →
        (agentRun env 3 i0).1.Success = true ∧
        (agentRun env 3 i0).1.Attempts.length = 3 ∧
        (∃ a2, (agentRun env 3 i0).1.Attempts.get? 1 = some a2 ∧
          a2.Error = "build failed: " ++ e2) ∧
        (∃ s3, (3, s3) ∈ genCalls (agentRun env 3 i0).2 ∧
          goContains s3 ("build failed: " ++ e2) = true)) ∧
    (∀ (env : AgentEnv) (i0 : String) (og : Nat → Output) (blf tlf tef : Nat → String),
        (∀ n s, env.generate n s = .ok (og n)) →
        (∀ n, env.writeErr n = none) →
        (∀ n, env.build n = (blf n, none)) →
        (∀ n, env.test n = (tlf n, some (tef n))) →
        (agentRun env 2 i0).1.Success = false ∧
        (agentRun env 2 i0).1.Attempts.length = 2) ∧
    (∀ (env : AgentEnv) (maxA : Nat) (i0 : String),
        (agentRun env maxA i0).1.Attempts.length ≤ maxA) := by
  refine ⟨?_, ?_, ?_⟩
  · intro env i0 o1 o2 o3 bl1 bl2 bl3 tl3 e1 e2 hg1 hg2 hg3 hw hb1 hb2 hb3 ht3
    have r1g : ∀ (s : String) (c : Nat), runAttemptM env s 1 c =
        ({ Number := 1, StartTime := c, EndTime := some (c + 1), Success := false,
           Error := "build failed: " ++ e1, Output := some o1, BuildLog := bl1, TestLog := "" },
         AgEvent.genCall 1 s ::
           (writeDockerFiles env.workDir o1).map (fun w => AgEvent.fileWrite w.1 w.2)) :=
      fun s c => runAttemptM_buildFail env s 1 c o1 bl1 e1 (hg1 s) (hw 1) hb1
    have r2g : ∀ (s : String) (c : Nat), runAttemptM env s 2 c =
        ({ Number := 2, StartTime := c, EndTime := some (c + 1), Success := false,
           Error := "build failed: " ++ e2, Output := some o2, BuildLog := bl2, TestLog := "" },
         AgEvent.genCall 2 s ::
           (writeDockerFiles env.workDir o2).map (fun w => AgEvent.fileWrite w.1 w.2)) :=
      fun s c => runAttemptM_buildFail env s 2 c o2 bl2 e2 (hg2 s) (hw 2) hb2
    have r3g : ∀ (s : String) (c : Nat), runAttemptM env s 3 c =
        ({ Number := 3, StartTime := c, EndTime := some (c + 1), Success := true,
           Error := "", Output := some o3, BuildLog := bl3, TestLog := tl3 },
         AgEvent.genCall 3 s ::
           (writeDockerFiles env.workDir o3).map (fun w => AgEvent.fileWrite w.1 w.2)) :=
      fun s c => runAttemptM_allOk env s 3 c o3 bl3 tl3 (hg3 s) (hw 3) hb3 ht3
    have hf1 : ∀ (s : String) (c : Nat), (runAttemptM env s 1 c).1.Success = false :=
      fun s c => by rw [r1g]
    have hf2 : ∀ (s : String) (c : Nat), (runAttemptM env s 2 c).1.Success = false :=
      fun s c => by rw [r2g]
    have hs3 : ∀ (s : String) (c : Nat), (runAttemptM env s 3 c).1.Success = true :=
      fun s c => by rw [r3g]
    unfold agentRun
    rw [agentLoop_fail_step env 3 2 1 i0 0 [] [] (hf1 i0 0)]
    rw [agentLoop_fail_step env 3 1 2 _ 2 _ _ (hf2 _ _)]
    rw [agentLoop_succ_step env 3 0 3 _ 4 _ _ (hs3 _ _)]
    rw [r1g, r2g, r3g]
    refine ⟨by simp, by simp,
      ⟨{ Number := 2, StartTime := 2, EndTime := some 3, Success := false,
         Error := "build failed: " ++ e2, Output := some o2, BuildLog := bl2,
         TestLog := "" }, by simp, rfl⟩, ?_⟩
    · refine ⟨nextInstructions
        (if 1 < 3 then
          nextInstructions i0 ("build failed: " ++ e1)
        else i0) ("build failed: " ++ e2), ?_, nextInstructions_contains _ _⟩
      simp [genCalls_append, genCalls, genCalls_fileWrites]
  · intro env i0 og blf tlf tef hg hw hb ht
    have r1g : ∀ (s : String) (c : Nat), runAttemptM env s 1 c =
        ({ Number := 1, StartTime := c, EndTime := some (c + 1), Success := false,
           Error := "test failed: " ++ tef 1, Output := some (og 1), BuildLog := blf 1,
           TestLog := tlf 1 },
         AgEvent.genCall 1 s ::
           (writeDockerFiles env.workDir (og 1)).map (fun w => AgEvent.fileWrite w.1 w.2)) :=
      fun s c => runAttemptM_testFail env s 1 c (og 1) (blf 1) (tlf 1) (tef 1)
        (hg 1 s) (hw 1) (hb 1) (ht 1)
    have r2g : ∀ (s : String) (c : Nat), runAttemptM env s 2 c =
        ({ Number := 2, StartTime := c, EndTime := some (c + 1), Success := false,
           Error := "test failed: " ++ tef 2, Output := some (og 2), BuildLog := blf 2,
           TestLog := tlf 2 },
         AgEvent.genCall 2 s ::
           (writeDockerFiles env.workDir (og 2)).map (fun w => AgEvent.fileWrite w.1 w.2)) :=
      fun s c => runAttemptM_testFail env s 2 c (og 2) (blf 2) (tlf 2) (tef 2)
        (hg 2 s) (hw 2) (hb 2) (ht 2)
    have hf1 : ∀ (s : String) (c : Nat), (runAttemptM env s 1 c).1.Success = false :=
      fun s c => by rw [r1g]
    have hf2 : ∀ (s : String) (c : Nat), (runAttemptM env s 2 c).1.Success = false :=
      fun s c => by rw [r2g]
    unfold agentRun
    rw [agentLoop_fail_step env 2 1 1 i0 0 [] [] (hf1 i0 0)]
    rw [agentLoop_fail_step env 2 0 2 _ 2 _ _ (hf2 _ _)]
    exact ⟨by simp [agentLoop], by simp [agentLoop]⟩
  · intro env maxA i0
    have := agentLoop_length_le env maxA maxA 1 i0 0 [] []
    simpa [agentRun] using this

/-- C7 witness: the concrete stubs realize both scenarios. -/
theorem C7_witness :
    ((agentRun envBuildFailTwice 3 "init").1.Success = true ∧
     (agentRun envBuildFailTwice 3 "init").1.Attempts.length = 3 ∧
     (∃ a2, (agentRun envBuildFailTwice 3 "init").1.Attempts.get? 1 = some a2 ∧
       a2.Error = "build failed: " ++ "no such base image 2") ∧
     (∃ s3, (3, s3) ∈ genCalls (agentRun envBuildFailTwice 3 "init").2 ∧
       goContains s3 ("build failed: " ++ "no such base image 2") = true)) ∧
    ((agentRun envTestAlwaysFails 2 "init").1.Success = false ∧
     (agentRun envTestAlwaysFails 2 "init").1.Attempts.length = 2) :=
  ⟨C7_agent_loop_scenarios.1 envBuildFailTwice "init"
      (Output.mk "FROM alpine" "" "" "") (Output.mk "FROM alpine" "" "" "")
      (Output.mk "FROM alpine" "" "" "")
      "buildlog" "buildlog" "buildlog3" "testlog" "no such base image 1" "no such base image 2"
      (fun s => rfl) (fun s => rfl) (fun s => rfl) (fun n => rfl)
      (by decide) (by decide) (by decide) (by decide),
    C7_agent_loop_scenarios.2.1 envTestAlwaysFails "init"
      (fun _ => Output.mk "FROM alpine" "" "" "") (fun _ => "buildlog") (fun _ => "testlog")
      (fun _ => "container exited with status: exited")
      (fun n s => rfl) (fun n => rfl) (fun n => rfl) (fun n => rfl)⟩

/-! ### C8: cancellation and the loop -/

/-- C8 counterexample.  With a cancelled context every generation call
returns the cancellation error; the loop nevertheless starts attempt 2
and issues a second generation request whose instructions embed the
observed cancellation error, so cancellation does not abort the Run. -/
theorem C8_counterexample :
    (2, nextInstructions "i" "context canceled") ∈ genCalls (agentRun envCancelled 2 "i").2 ∧
    (agentRun envCancelled 2 "i").1.Attempts.length = 2 ∧
    (agentRun envCancelled 2 "i").1.Attempts.all
      (fun a => a.Error = "context canceled") = true :=
  ⟨by decide, by decide, by decide⟩

/-- C8 (amended).  The cancellation token is threaded into every
external call (the provider request and the subprocess invocations),
and cancellation surfaces only as those calls' errors; the loop itself
never checks the token, treats such errors as ordinary attempt
failures, and keeps starting new attempts — issuing one generation
request per attempt — up to `maxAttempts`; the Run is not aborted
early. -/
theorem C8_amended_cancellation (env : AgentEnv) (maxA : Nat) (i0 ce : String)
    (hgen : ∀ n s, env.generate n s = .error ce) :
    (agentRun env maxA i0).1.Success = false ∧
    (agentRun env maxA i0).1.Attempts.length = maxA ∧
    (genCalls (agentRun env maxA i0).2).length = maxA := by
  have := agentLoop_all_genFail env maxA ce hgen maxA 1 i0 0 [] []
  simpa [agentRun, genCalls] using this

/-- C8 witness: the amended theorem applied to the cancelled
collaborator stub with `maxAttempts = 2`. -/
theorem C8_witness :
    (∀ (n : Nat) (s : String), envCancelled.generate n s = .error "context canceled") ∧
    ((agentRun envCancelled 2 "i").1.Success = false ∧
     (agentRun envCancelled 2 "i").1.Attempts.length = 2 ∧
     (genCalls (agentRun envCancelled 2 "i").2).length = 2) :=
  ⟨fun _ _ => rfl,
    C8_amended_cancellation envCancelled 2 "i" "context canceled" (fun _ _ => rfl)⟩

/-! ### C10: the shape of Run's result -/

/-- C10.  `Agent.Run`'s Go error return is always nil; with a positive
attempt bound the result holds at least 1 and at most `maxAttempts`
attempt records, and every record has its `EndTime` set. -/
theorem C10_run_result_shape (env : AgentEnv) (maxA : Nat) (i0 : String)
    (hpos : 1 ≤ maxA) :
    (agentRunWithError env maxA i0).2 = none ∧
    1 ≤ (agentRun env maxA i0).1.Attempts.length ∧
    (agentRun env maxA i0).1.Attempts.length ≤ maxA ∧
    ∀ a ∈ (agentRun env maxA i0).1.Attempts, a.EndTime.isSome = true := by
  refine ⟨rfl, ?_, ?_, ?_⟩
  · obtain ⟨rem, rfl⟩ : ∃ rem, maxA = rem + 1 := ⟨maxA - 1, by omega⟩
    unfold agentRun
    by_cases hs : (runAttemptM env i0 1 0).1.Success = true
    · rw [agentLoop_succ_step env (rem + 1) rem 1 i0 0 [] [] hs]
      simp
    · rw [agentLoop_fail_step env (rem + 1) rem 1 i0 0 [] [] (by simpa using hs)]
      have := agentLoop_length_ge env (rem + 1) rem 2
        (if 1 < rem + 1 then
          nextInstructions i0 (runAttemptM env i0 1 0).1.Error
        else i0)
        2 ([] ++ [(runAttemptM env i0 1 0).1]) ([] ++ (runAttemptM env i0 1 0).2)
      simpa using this
  · have := agentLoop_length_le env maxA maxA 1 i0 0 [] []
    simpa [agentRun] using this
  · intro a ha
    exact agentLoop_endTime env maxA maxA 1 i0 0 [] [] (by simp) a ha

/-- C10 witness: a one-attempt run with a failing collaborator. -/
theorem C10_witness :
    1 ≤ 1 ∧
    ((agentRunWithError envCancelled 1 "i").2 = none ∧
     1 ≤ (agentRun envCancelled 1 "i").1.Attempts.length ∧
     (agentRun envCancelled 1 "i").1.Attempts.length ≤ 1 ∧
     ∀ a ∈ (agentRun envCancelled 1 "i").1.Attempts, a.EndTime.isSome = true) :=
  ⟨le_refl 1, C10_run_result_shape envCancelled 1 "i" (le_refl 1)⟩

end Dockerizer
